import Mathlib

/-!
# UniVerse backend — shallow embedding and verification

This file embeds the request handlers of `src/main.py` (a FastAPI + MongoDB
campus-community backend) as executable Lean definitions and proves the
frozen claims about them.

Modelling conventions:
* A MongoDB document is an association list `Doc` with unique keys in
  practice (Python `dict`); values are modelled by the inductive `Value`
  covering every value shape this system produces (strings, numbers,
  booleans are unused, null, UTC datetimes at second granularity, ObjectIds
  as 24-char hex strings, and lists of strings for `tags`).
* Numbers (`price`, `rate_per_hour`) are modelled as `Int`; no claim
  depends on floating-point behaviour.
* `datetime.utcnow()` is modelled by an explicit `now : Nat` parameter
  (seconds since the Unix epoch); `timedelta(days=7)` is `7 * 86400`.
* The MongoDB driver is the external collaborator of spec §6: a collection
  is a `List Doc`, the whole store a function `Store` from collection name
  to its documents; `insert_one` appends (the driver stamps the fresh
  `_id`, passed here as an explicit parameter), `find_one` returns the
  first match, `delete_one` removes the first match, `find(filt).sort`
  is filtering followed by sorting.
* A `$regex` filter with option `"i"` is modelled as case-insensitive
  literal substring matching on string values (and, as in MongoDB, on any
  element of an array of strings); patterns with regex metacharacters are
  outside the scope of the spec, which calls this "contains".
* `hashlib.sha256(...).hexdigest()` is external; handlers that hash take
  the digest function `hash_password : String → String` as a parameter.
* Handlers raise `HTTPException`; this is modelled by returning
  `Except Err _` paired with the resulting state, where an error pairs
  with the unchanged state.
-/

namespace UniVerse

/-- A BSON value as produced by this system. -/
inductive Value where
  | VNull : Value
  | VStr : String → Value
  | VNum : Int → Value
  | VDate : Nat → Value
  | VOid : String → Value
  | VStrList : List String → Value
deriving DecidableEq, Repr

/-- A MongoDB document / Python dict: an association list of fields. -/
abbrev Doc := List (String × Value)

/-- The document store: collection name ↦ stored documents. -/
abbrev Store := String → List Doc

/-- The error taxonomy of spec §7 (HTTP statuses 400/404/400-conflict/401/500). -/
inductive Err where
  | badRequest : Err
  | notFound : Err
  | conflict : Err
  | unauthorized : Err
  | unavailable : Err
deriving DecidableEq, Repr

/-- Python `d.get(k)` / `d[k]`: first binding of `k` in the dict. -/
def lookupKey : Doc → String → Option Value
  | [], _ => none
  | (k', v) :: t, k => if k' == k then some v else lookupKey t k

/-- Python `d.pop(k)` (the removal part): drop the binding of `k`. -/
def eraseKey : Doc → String → Doc
  | [], _ => []
  | (k', v) :: t, k => if k' == k then eraseKey t k else (k', v) :: eraseKey t k

/-- Python `d[k] = v`: overwrite in place if the key exists, else append. -/
def setKey (d : Doc) (k : String) (v : Value) : Doc :=
  if d.any (fun kv => kv.1 == k) then
    d.map (fun kv => if kv.1 == k then (k, v) else kv)
  else
    d ++ [(k, v)]

/-- Zero-padded two-digit decimal rendering. -/
def pad2 (n : Nat) : String :=
  if n < 10 then "0" ++ toString n else toString n

/-- Civil date from days since 1970-01-01 (Gregorian, proleptic). -/
def daysToYMD (z0 : Nat) : Nat × Nat × Nat :=
  let z := z0 + 719468
  let era := z / 146097
  let doe := z % 146097
  let yoe := (doe - doe / 1460 + doe / 36524 - doe / 146096) / 365
  let y := yoe + era * 400
  let doy := doe - (365 * yoe + yoe / 4 - yoe / 100)
  let mp := (5 * doy + 2) / 153
  let d := doy - (153 * mp + 2) / 5 + 1
  let m := if mp < 10 then mp + 3 else mp - 9
  (if m ≤ 2 then y + 1 else y, m, d)

/-- Python `datetime.isoformat()` for a UTC instant at second granularity. -/
def isoString (t : Nat) : String :=
  let days := t / 86400
  let secs := t % 86400
  let ymd := daysToYMD days
  toString ymd.1 ++ "-" ++ pad2 ymd.2.1 ++ "-" ++ pad2 ymd.2.2 ++ "T" ++
    pad2 (secs / 3600) ++ ":" ++ pad2 (secs % 3600 / 60) ++ ":" ++ pad2 (secs % 60)

/-- Python `str(v)` on the value shapes this system can place in `_id`. -/
def strOfValue : Value → String
  | .VNull => "None"
  | .VStr s => s
  | .VNum n => toString n
  | .VDate t => isoString t
  | .VOid s => s
  | .VStrList l => "[" ++ String.intercalate ", " l ++ "]"

/-- Python `str(opt)` where `opt` may be `None`. -/
def pyStr : Option Value → String
  | none => "None"
  | some v => strOfValue v

/-- The per-value part of the serializer's datetime pass:
`isinstance(v, datetime)` values become their ISO string, others pass through. -/
def isoMapValue : Value → Value
  | .VDate t => .VStr (isoString t)
  | v => v

/-- The body of `serialize` on a non-`None` document (`main.py` lines 36–43):
shallow copy, rename `_id` to `id` rendered via `str`, then render every
datetime value as its ISO string. -/
def serializeDoc (d : Doc) : Doc :=
  let d1 :=
    if d.any (fun kv => kv.1 == "_id") then
      setKey (eraseKey d "_id") "id" (.VStr (pyStr (lookupKey d "_id")))
    else d
  d1.map (fun kv => (kv.1, isoMapValue kv.2))

/-- Function `serialize` (`main.py` lines 33–43), including the `None` short-circuit. -/
def serialize : Option Doc → Option Doc
  | none => none
  | some d => some (serializeDoc d)

/-! ## Filter Builder (`build_filter`, `main.py` lines 176–187) -/

/-- Does the needle start the haystack? (plain list-of-chars check). -/
def leadsWith : List Char → List Char → Bool
  | [], _ => true
  | _ :: _, [] => false
  | a :: as, b :: bs => a == b && leadsWith as bs

/-- Does the haystack (second argument) contain the needle as a
contiguous run? -/
def hasSub (needle : List Char) : List Char → Bool
  | [] => leadsWith needle []
  | c :: t => leadsWith needle (c :: t) || hasSub needle t

/-- Case-insensitive "contains": the semantics of a literal MongoDB
`$regex` pattern with option `"i"` against a stored string. -/
def containsCI (pat s : String) : Bool :=
  hasSub (pat.data.map Char.toLower) (s.data.map Char.toLower)

/-- Python truthiness of an `Optional[str]`: `None` and `""` are falsy. -/
def truthy : Option String → Bool
  | none => false
  | some s => s != ""

/-- The filter dict assembled by `build_filter`: an optional
`$or [title, description]` pattern plus optional `location` / `subject`
patterns. -/
structure Filter where
  qOr : Option String
  location : Option String
  subject : Option String
deriving DecidableEq, Repr

/-- Function `build_filter(q, location, subject)`: each term is added only when the
Python argument is truthy (`if q:` — so `None` and `""` both add nothing). -/
def build_filter (q location subject : Option String) : Filter :=
  { qOr := if truthy q then q else none
    location := if truthy location then location else none
    subject := if truthy subject then subject else none }

/-- Does a `$regex` constraint match a stored value? As in MongoDB it
matches a string, or any element of an array of strings; it never matches
`null`, numbers, or a missing value. -/
def regexMatchValue (pat : String) : Value → Bool
  | .VStr s => containsCI pat s
  | .VStrList l => l.any (fun s => containsCI pat s)
  | _ => false

/-- Does the document's field `k` satisfy a `$regex pat, $options i`
constraint? A document lacking the field never matches. -/
def fieldRegex (d : Doc) (k pat : String) : Bool :=
  match lookupKey d k with
  | some v => regexMatchValue pat v
  | none => false

/-- An optional constraint: an absent term matches everything, a present
term is tested by `f`. -/
def optTerm (o : Option String) (f : String → Bool) : Bool :=
  match o with
  | none => true
  | some p => f p

/-- MongoDB's evaluation of the dict built by `build_filter`: implicit AND
of the present constraints, `$or` across `title`/`description`. -/
def evalFilter (f : Filter) (d : Doc) : Bool :=
  optTerm f.qOr (fun p => fieldRegex d "title" p || fieldRegex d "description" p)
  && optTerm f.location (fun p => fieldRegex d "location" p)
  && optTerm f.subject (fun p => fieldRegex d "subject" p)

/-- The predicate in the words of the claim for the Filter Builder: a term
constrains whenever the argument is PRESENT (even the empty string, which
is a substring of every stored string); only an absent argument is
unconstrained. -/
def specFilterPred (q location subject : Option String) (d : Doc) : Bool :=
  optTerm q (fun p => fieldRegex d "title" p || fieldRegex d "description" p)
  && optTerm location (fun p => fieldRegex d "location" p)
  && optTerm subject (fun p => fieldRegex d "subject" p)

/-- The amended predicate: an argument that is absent OR the empty string
is unconstrained (Python truthiness); a present non-empty argument
constrains by case-insensitive containment. -/
def emptyAsAbsentPred (q location subject : Option String) (d : Doc) : Bool :=
  optTerm q (fun p =>
    if p == "" then true
    else fieldRegex d "title" p || fieldRegex d "description" p)
  && optTerm location (fun p => if p == "" then true else fieldRegex d "location" p)
  && optTerm subject (fun p => if p == "" then true else fieldRegex d "subject" p)

/-! ## Collection Registry and list endpoints -/

/-- The registry `ALLOWED_COLLECTIONS` (`main.py` lines 51–59). -/
def ALLOWED_COLLECTIONS : List (String × String) :=
  [("beacons", "beacon"), ("resources", "resource"), ("tutors", "tutor"),
   ("clubs", "club"), ("events", "event"), ("lostfound", "lostfound"),
   ("market", "market")]

/-- Registry lookup: `ALLOWED_COLLECTIONS[endpoint]` guarded by
`endpoint in ALLOWED_COLLECTIONS`. -/
def lookupColl (endpoint : String) : Option String :=
  (ALLOWED_COLLECTIONS.find? (fun kv => kv.1 == endpoint)).map (fun kv => kv.2)

/-- MongoDB's sort rank of a document at field `k`: a missing field or a
null sorts below every datetime (ascending puts it first). Only datetime
keys (`created_at`, `start_time`) are sorted on in this system. -/
def keyNat (d : Doc) (k : String) : Nat :=
  match lookupKey d k with
  | some (.VDate t) => t + 1
  | _ => 0

/-- The store call `db[coll].find(filt).sort(key, 1 or -1)`: the matching documents in
key order (ascending if `ascending`, else descending). -/
def findSorted (docs : List Doc) (f : Filter) (key : String) (ascending : Bool) :
    List Doc :=
  let matched := docs.filter (fun d => evalFilter f d)
  if ascending then
    matched.insertionSort (fun a b => keyNat a key ≤ keyNat b key)
  else
    matched.insertionSort (fun a b => keyNat b key ≤ keyNat a key)

/-- Handler `list_beacons` before serialization (`main.py` lines 224–228). -/
def list_beacons_docs (st : Store) (q location subject : Option String) : List Doc :=
  findSorted (st "beacon") (build_filter q location subject) "created_at" false

/-- Handler `list_beacons`: serialized response. -/
def list_beacons (st : Store) (q location subject : Option String) : List Doc :=
  (list_beacons_docs st q location subject).map serializeDoc

/-- Handler `list_resources` before serialization (`main.py` lines 231–235). -/
def list_resources_docs (st : Store) (q location subject : Option String) : List Doc :=
  findSorted (st "resource") (build_filter q location subject) "created_at" false

/-- Handler `list_resources`: serialized response. -/
def list_resources (st : Store) (q location subject : Option String) : List Doc :=
  (list_resources_docs st q location subject).map serializeDoc

/-- Handler `list_tutors` before serialization (`main.py` lines 238–242). -/
def list_tutors_docs (st : Store) (q location subject : Option String) : List Doc :=
  findSorted (st "tutor") (build_filter q location subject) "created_at" false

/-- Handler `list_tutors`: serialized response. -/
def list_tutors (st : Store) (q location subject : Option String) : List Doc :=
  (list_tutors_docs st q location subject).map serializeDoc

/-- Handler `list_clubs` before serialization (`main.py` lines 245–249); passes
`None` as the subject term. -/
def list_clubs_docs (st : Store) (q location : Option String) : List Doc :=
  findSorted (st "club") (build_filter q location none) "created_at" false

/-- Handler `list_clubs`: serialized response. -/
def list_clubs (st : Store) (q location : Option String) : List Doc :=
  (list_clubs_docs st q location).map serializeDoc

/-- Handler `list_events` before serialization (`main.py` lines 252–256): the one
endpoint sorting by `start_time` ascending. -/
def list_events_docs (st : Store) (q location : Option String) : List Doc :=
  findSorted (st "event") (build_filter q location none) "start_time" true

/-- Handler `list_events`: serialized response. -/
def list_events (st : Store) (q location : Option String) : List Doc :=
  (list_events_docs st q location).map serializeDoc

/-- Handler `list_lostfound` before serialization (`main.py` lines 259–263). -/
def list_lostfound_docs (st : Store) (q location subject : Option String) : List Doc :=
  findSorted (st "lostfound") (build_filter q location subject) "created_at" false

/-- Handler `list_lostfound`: serialized response. -/
def list_lostfound (st : Store) (q location subject : Option String) : List Doc :=
  (list_lostfound_docs st q location subject).map serializeDoc

/-- Handler `list_market` before serialization (`main.py` lines 266–270); passes
`None` as the subject term. -/
def list_market_docs (st : Store) (q location : Option String) : List Doc :=
  findSorted (st "market") (build_filter q location none) "created_at" false

/-- Handler `list_market`: serialized response. -/
def list_market (st : Store) (q location : Option String) : List Doc :=
  (list_market_docs st q location).map serializeDoc

/-! ## ObjectIds and generic create / delete -/

/-- Is the character a hexadecimal digit? -/
def isHexChar (c : Char) : Bool :=
  c.isDigit || ('a' ≤ c && c ≤ 'f') || ('A' ≤ c && c ≤ 'F')

/-- Syntactic validity of a BSON ObjectId string: exactly 24 hex digits
(what `bson.ObjectId(id_str)` accepts from a path parameter). -/
def isValidOid (s : String) : Bool :=
  s.length == 24 && s.data.all isHexChar

/-- Utility `oid` (`main.py` lines 26–30): parse an id string into the store's
native id form, or fail (the handler turns the failure into a 400).
ObjectIds compare as bytes, so the hex is normalised to lower case. -/
def oid (id_str : String) : Option String :=
  if isValidOid id_str then some (String.mk (id_str.data.map Char.toLower))
  else none

/-- Point update of the store at one collection. -/
def storeSet (st : Store) (c : String) (docs : List Doc) : Store :=
  fun n => if n = c then docs else st n

/-- The store call `find_one({"_id": i})`: the first stored document whose `_id` is the
ObjectId `i`. -/
def findById (docs : List Doc) (i : String) : Option Doc :=
  docs.find? (fun d => lookupKey d "_id" == some (.VOid i))

/-- The store call `delete_one({"_id": i})`: remove the first document whose `_id` is `i`
(no change when none matches). -/
def eraseById : List Doc → String → List Doc
  | [], _ => []
  | d :: t, i =>
    if lookupKey d "_id" == some (.VOid i) then t else d :: eraseById t i

/-- Model `CreateItemRequest` (`main.py` lines 76–91): the declared request
model; every field but `title` is optional with default `None`. Pydantic
ignores payload keys outside this model. -/
structure CreateItemRequest where
  title : String
  description : Option String := none
  owner_id : Option String := none
  owner_name : Option String := none
  location : Option String := none
  subject : Option String := none
  price : Option Int := none
  condition : Option String := none
  url : Option String := none
  tags : Option (List String) := none
  start_time : Option Nat := none
  end_time : Option Nat := none
  rate_per_hour : Option Int := none
  availability : Option String := none
  status : Option String := none
deriving DecidableEq, Repr

/-- Python `payload.model_dump()`: every declared field with its (possibly null)
value, in declaration order. -/
def payloadFields (p : CreateItemRequest) : List (String × Option Value) :=
  [("title", some (.VStr p.title)),
   ("description", p.description.map .VStr),
   ("owner_id", p.owner_id.map .VStr),
   ("owner_name", p.owner_name.map .VStr),
   ("location", p.location.map .VStr),
   ("subject", p.subject.map .VStr),
   ("price", p.price.map .VNum),
   ("condition", p.condition.map .VStr),
   ("url", p.url.map .VStr),
   ("tags", p.tags.map .VStrList),
   ("start_time", p.start_time.map .VDate),
   ("end_time", p.end_time.map .VDate),
   ("rate_per_hour", p.rate_per_hour.map .VNum),
   ("availability", p.availability.map .VStr),
   ("status", p.status.map .VStr)]

/-- The comprehension `{k: v for k, v in fields if v is not None}`. -/
def fieldsToDoc (l : List (String × Option Value)) : Doc :=
  l.filterMap (fun kv => kv.2.map (fun v => (kv.1, v)))

/-- The dict-comprehension of `create_item` line 281: the non-null payload
fields. -/
def docOfPayload (p : CreateItemRequest) : Doc :=
  fieldsToDoc (payloadFields p)

/-- The document handed to `insert_one` (`main.py` lines 281–283): the
non-null payload fields plus the `created_at` / `updated_at` stamps. -/
def createDoc (p : CreateItemRequest) (now : Nat) : Doc :=
  docOfPayload p ++ [("created_at", .VDate now), ("updated_at", .VDate now)]

/-- The document as it rests in the store after `insert_one`: the built
document with the driver-stamped fresh `_id` appended. -/
def insertedDoc (p : CreateItemRequest) (now : Nat) (newId : String) : Doc :=
  createDoc p now ++ [("_id", .VOid newId)]

/-- Handler `create_item` (`main.py` lines 274–286): resolve the endpoint (404 on
an unknown one, before any store access), build the document from the
non-null payload fields, stamp the times, insert (the driver appends the
fresh `_id` given here as `newId`), re-read by the generated id, and
return the re-read record serialized. Errors leave the store unchanged. -/
def create_item (st : Store) (endpoint : String) (payload : CreateItemRequest)
    (now : Nat) (newId : String) : Except Err (Option Doc) × Store :=
  match lookupColl endpoint with
  | none => (.error .notFound, st)
  | some c =>
    let st' := storeSet st c (st c ++ [insertedDoc payload now newId])
    let created := findById (st' c) newId
    (.ok (serialize created), st')

/-- Handler `delete_item` (`main.py` lines 290–299): resolve the endpoint (404 on
an unknown one), parse the id (400 on a malformed one, before the store is
queried or mutated), delete the matching record (404 when the delete count
is zero). Errors leave the store unchanged. -/
def delete_item (st : Store) (endpoint item_id : String) : Except Err Unit × Store :=
  match lookupColl endpoint with
  | none => (.error .notFound, st)
  | some c =>
    match oid item_id with
    | none => (.error .badRequest, st)
    | some i =>
      match findById (st c) i with
      | none => (.error .notFound, st)
      | some _ => (.ok (), storeSet st c (eraseById (st c) i))

/-! ## Auth Service (`signup`, `login`) -/

/-- Model `SignupRequest` (`main.py` lines 64–68). -/
structure SignupRequest where
  student_id : String
  name : String
  email : String
  password : String
deriving DecidableEq, Repr

/-- Model `LoginRequest` (`main.py` lines 71–73): `identifier` is an email or a
student id. -/
structure LoginRequest where
  identifier : String
  password : String
deriving DecidableEq, Repr

/-- The `$or` predicate of signup's existence check: same `student_id` or
same `email`. -/
def matchesSignup (p : SignupRequest) (d : Doc) : Bool :=
  lookupKey d "student_id" == some (.VStr p.student_id) ||
    lookupKey d "email" == some (.VStr p.email)

/-- The `$or` predicate of login's user lookup: the identifier equals the
stored `email` or the stored `student_id`. -/
def matchesIdent (identifier : String) (d : Doc) : Bool :=
  lookupKey d "email" == some (.VStr identifier) ||
    lookupKey d "student_id" == some (.VStr identifier)

/-- The user document inserted by signup (`main.py` lines 137–147),
`_id` appended by the driver. -/
def userDocOf (p : SignupRequest) (now : Nat) (newId : String)
    (hash_password : String → String) : Doc :=
  [("student_id", .VStr p.student_id),
   ("name", .VStr p.name),
   ("email", .VStr p.email),
   ("password_hash", .VStr (hash_password p.password)),
   ("avatar_url", .VNull),
   ("bio", .VNull),
   ("created_at", .VDate now),
   ("updated_at", .VDate now),
   ("_id", .VOid newId)]

/-- Handler `signup` (`main.py` lines 130–148): a single combined existence check
with OR semantics blocks the signup with a conflict; otherwise the user
document (password stored as its one-way hash) is inserted and the new id
returned. The second component is the resulting user collection. -/
def signup (users : List Doc) (p : SignupRequest) (now : Nat) (newId : String)
    (hash_password : String → String) : Except Err String × List Doc :=
  if users.any (fun d => matchesSignup p d) then
    (.error .conflict, users)
  else
    (.ok newId, users ++ [userDocOf p now newId hash_password])

/-- The session document inserted by login (`main.py` lines 164–169):
`user_id` is `str(user.get("_id"))`, expiry is issue time plus 7 days;
`_id` appended by the driver. -/
def sessionDocOf (u : Doc) (token : String) (now : Nat) (sessId : String) : Doc :=
  [("user_id", .VStr (pyStr (lookupKey u "_id"))),
   ("token", .VStr token),
   ("created_at", .VDate now),
   ("expires_at", .VDate (now + 7 * 86400)),
   ("_id", .VOid sessId)]

/-- Handler `login` (`main.py` lines 151–171): find the first user whose email or
student_id equals the identifier; fail 401 when none matches or the hash
of the supplied password differs from the stored `password_hash`; on
success insert a session (expiry = issue time + 7 days) and return the
fresh token (`uuid4`, passed as `token`) with the serialized user. The
second component is the resulting session collection. -/
def login (users sessions : List Doc) (p : LoginRequest) (now : Nat)
    (token sessId : String) (hash_password : String → String) :
    Except Err (String × Option Doc) × List Doc :=
  match users.find? (fun d => matchesIdent p.identifier d) with
  | none => (.error .unauthorized, sessions)
  | some u =>
    if lookupKey u "password_hash" == some (.VStr (hash_password p.password)) then
      (.ok (token, serialize (some u)), sessions ++ [sessionDocOf u token now sessId])
    else
      (.error .unauthorized, sessions)

/-! ## Association-list lemmas -/

theorem lookupKey_eq_none_iff_any (d : Doc) (k : String) :
    lookupKey d k = none ↔ d.any (fun kv => kv.1 == k) = false := by
  induction d with
  | nil => simp [lookupKey]
  | cons h t ih =>
    obtain ⟨k', v⟩ := h
    cases hk : k' == k with
    | true => simp [lookupKey, hk]
    | false => simp [lookupKey, hk, ih]

theorem lookupKey_append_of_none {l1 : Doc} {k : String} (l2 : Doc)
    (h : lookupKey l1 k = none) : lookupKey (l1 ++ l2) k = lookupKey l2 k := by
  induction l1 with
  | nil => simp
  | cons hd t ih =>
    obtain ⟨k', v⟩ := hd
    cases hk : k' == k with
    | true => simp [lookupKey, hk] at h
    | false =>
      simp only [lookupKey, hk] at h
      simpa [lookupKey, hk] using ih h

theorem lookupKey_append_of_some {l1 : Doc} {k : String} {v : Value} (l2 : Doc)
    (h : lookupKey l1 k = some v) : lookupKey (l1 ++ l2) k = some v := by
  induction l1 with
  | nil => simp [lookupKey] at h
  | cons hd t ih =>
    obtain ⟨k', v'⟩ := hd
    cases hk : k' == k with
    | true => simp_all [lookupKey, hk]
    | false =>
      simp only [lookupKey, hk] at h
      simpa [lookupKey, hk] using ih h

theorem lookupKey_map_iso (d : Doc) (k : String) :
    lookupKey (d.map (fun kv => (kv.1, isoMapValue kv.2))) k
      = (lookupKey d k).map isoMapValue := by
  induction d with
  | nil => rfl
  | cons h t ih =>
    obtain ⟨k', v⟩ := h
    cases hk : k' == k with
    | true => simp [lookupKey, hk]
    | false => simp [lookupKey, hk, ih]

theorem lookupKey_eraseKey_self (d : Doc) (k : String) :
    lookupKey (eraseKey d k) k = none := by
  induction d with
  | nil => rfl
  | cons h t ih =>
    obtain ⟨k', v⟩ := h
    cases hk : k' == k with
    | true => simpa [eraseKey, hk] using ih
    | false => simp [eraseKey, lookupKey, hk, ih]

theorem lookupKey_eraseKey_ne {k k0 : String} (d : Doc) (h : k ≠ k0) :
    lookupKey (eraseKey d k0) k = lookupKey d k := by
  induction d with
  | nil => rfl
  | cons hd t ih =>
    obtain ⟨k', v⟩ := hd
    cases hk : k' == k0 with
    | true =>
      have hk' : k' = k0 := by simpa using hk
      have : (k' == k) = false := by
        subst hk'
        simpa using fun hc => h hc.symm
      simp [eraseKey, lookupKey, hk, this, ih]
    | false => simp [eraseKey, lookupKey, hk, ih]

theorem lookupKey_mapSet {d : Doc} {k : String} (v : Value)
    (h : d.any (fun kv => kv.1 == k) = true) :
    lookupKey (d.map (fun kv => if kv.1 == k then (k, v) else kv)) k = some v := by
  induction d with
  | nil => simp at h
  | cons hd t ih =>
    obtain ⟨k', v'⟩ := hd
    simp only [List.map_cons]
    cases hk : k' == k with
    | true => simp [lookupKey]
    | false =>
      simp only [List.any_cons, hk, Bool.false_or] at h
      simpa [lookupKey, hk] using ih h

theorem lookupKey_mapSet_ne {k k0 : String} (d : Doc) (v : Value) (h : k ≠ k0) :
    lookupKey (d.map (fun kv => if kv.1 == k0 then (k0, v) else kv)) k
      = lookupKey d k := by
  induction d with
  | nil => rfl
  | cons hd t ih =>
    obtain ⟨k', v'⟩ := hd
    simp only [List.map_cons]
    cases hk : k' == k0 with
    | true =>
      have hk' : k' = k0 := by simpa using hk
      have h1 : (k0 == k) = false := by
        simpa using fun hc => h hc.symm
      have h2 : (k' == k) = false := by
        subst hk'; exact h1
      simp only [beq_iff_eq] at ih
      simp [lookupKey, h1, h2, ih]
    | false =>
      simp only [beq_iff_eq] at ih
      simp [lookupKey, hk, ih]

theorem lookupKey_setKey_self (d : Doc) (k : String) (v : Value) :
    lookupKey (setKey d k v) k = some v := by
  unfold setKey
  cases hg : d.any (fun kv => kv.1 == k) with
  | true => simpa [hg] using lookupKey_mapSet v hg
  | false =>
    have hnone : lookupKey d k = none := (lookupKey_eq_none_iff_any d k).2 hg
    simp [hg, lookupKey_append_of_none _ hnone, lookupKey]

theorem lookupKey_setKey_ne {k k0 : String} (d : Doc) (v : Value) (h : k ≠ k0) :
    lookupKey (setKey d k0 v) k = lookupKey d k := by
  unfold setKey
  cases hg : d.any (fun kv => kv.1 == k0) with
  | true =>
    rw [if_pos rfl]
    exact lookupKey_mapSet_ne d v h
  | false =>
    rw [if_neg (by simp)]
    cases hl : lookupKey d k with
    | some w => simp [lookupKey_append_of_some _ hl, hl]
    | none =>
      have h1 : (k0 == k) = false := by
        simpa using fun hc => h hc.symm
      simp [lookupKey_append_of_none _ hl, hl, lookupKey, h1]

/-! ## Serializer lemmas -/

theorem isoMapValue_idem (v : Value) : isoMapValue (isoMapValue v) = isoMapValue v := by
  cases v <;> rfl

theorem serializeDoc_lookup_id_none (d : Doc) :
    lookupKey (serializeDoc d) "_id" = none := by
  simp only [serializeDoc]
  cases hg : d.any (fun kv => kv.1 == "_id") with
  | true =>
    rw [if_pos rfl, lookupKey_map_iso, lookupKey_setKey_ne _ _ (by decide),
      lookupKey_eraseKey_self]
    rfl
  | false =>
    rw [if_neg (by simp), lookupKey_map_iso,
      (lookupKey_eq_none_iff_any d _).2 hg]
    rfl

theorem serializeDoc_lookup_id {d : Doc} {v : Value}
    (hv : lookupKey d "_id" = some v) :
    lookupKey (serializeDoc d) "id" = some (.VStr (strOfValue v)) := by
  simp only [serializeDoc]
  have hg : d.any (fun kv => kv.1 == "_id") = true := by
    cases hg' : d.any (fun kv => kv.1 == "_id") with
    | true => rfl
    | false =>
      rw [(lookupKey_eq_none_iff_any d _).2 hg'] at hv
      exact absurd hv (by simp)
  rw [if_pos hg, lookupKey_map_iso, lookupKey_setKey_self, hv]
  rfl


theorem serializeDoc_lookup_ne {k : String} (d : Doc)
    (h1 : k ≠ "_id") (h2 : k ≠ "id") :
    lookupKey (serializeDoc d) k = (lookupKey d k).map isoMapValue := by
  simp only [serializeDoc]
  cases hg : d.any (fun kv => kv.1 == "_id") with
  | true =>
    rw [if_pos rfl, lookupKey_map_iso, lookupKey_setKey_ne _ _ h2,
      lookupKey_eraseKey_ne _ h1]
  | false => rw [if_neg (by simp), lookupKey_map_iso]

theorem map_iso_self {l : Doc} (h : ∀ kv ∈ l, isoMapValue kv.2 = kv.2) :
    l.map (fun kv => (kv.1, isoMapValue kv.2)) = l := by
  induction l with
  | nil => rfl
  | cons hd t ih =>
    have hh := h hd (by simp)
    have ht : ∀ kv ∈ t, isoMapValue kv.2 = kv.2 := fun kv hkv => h kv (by simp [hkv])
    simp [hh, ih ht]

theorem serializeDoc_values_fixed (d : Doc) :
    ∀ kv ∈ serializeDoc d, isoMapValue kv.2 = kv.2 := by
  intro kv hkv
  unfold serializeDoc at hkv
  rcases List.mem_map.1 hkv with ⟨kv', _, rfl⟩
  exact isoMapValue_idem kv'.2

theorem serializeDoc_idem (d : Doc) :
    serializeDoc (serializeDoc d) = serializeDoc d := by
  have hany : (serializeDoc d).any (fun kv => kv.1 == "_id") = false :=
    (lookupKey_eq_none_iff_any _ _).1 (serializeDoc_lookup_id_none d)
  conv_lhs => rw [serializeDoc]
  rw [if_neg (by simp [hany])]
  exact map_iso_self (serializeDoc_values_fixed d)

/-! ## Filter Builder lemmas -/

theorem optTerm_truthy (o : Option String) (f : String → Bool) :
    optTerm (if truthy o then o else none) f
      = optTerm o (fun p => if p == "" then true else f p) := by
  obtain _ | p := o
  · rfl
  · show optTerm (if truthy (some p) then some p else none) f
      = if p == "" then true else f p
    cases hp : p == "" with
    | true => simp [optTerm, truthy, bne, hp]
    | false => simp [optTerm, truthy, bne, hp]

/-! ## Key-set lemmas for created documents -/

theorem keys_fieldsToDoc_subset (l : List (String × Option Value)) :
    (fieldsToDoc l).map (fun kv => kv.1) ⊆ l.map (fun kv => kv.1) := by
  induction l with
  | nil => simp [fieldsToDoc]
  | cons hd t ih =>
    obtain ⟨k, ov⟩ := hd
    cases ov with
    | none =>
      simp only [fieldsToDoc, List.filterMap_cons, Option.map_none']
      exact fun x hx => List.mem_cons_of_mem _ (ih hx)
    | some v =>
      simp only [fieldsToDoc, List.filterMap_cons, Option.map_some', List.map_cons]
      intro x hx
      rcases List.mem_cons.1 hx with rfl | hx
      · exact List.mem_cons_self _ _
      · exact List.mem_cons_of_mem _ (ih hx)

/-! ## Claim theorems -/

/-- C1, counterexample: the claim says a present empty-string `location`
argument constrains (a record lacking a location field must NOT match),
but `build_filter` uses Python truthiness, so `location=""` adds no
constraint and the record matches. -/
theorem build_filter_empty_string_counterexample :
    evalFilter (build_filter none (some "") none)
        [("title", Value.VStr "quiet beacon")] = true
    ∧ specFilterPred none (some "") none
        [("title", Value.VStr "quiet beacon")] = false := by
  constructor
  · rfl
  · rfl

/-- C1, amended: `build_filter` produces a predicate under which a record
matches iff each of the three terms is absent OR EMPTY or satisfied by
case-insensitive substring containment on the stored field (`$or` over
title/description for the free-text query); an empty-string argument is
treated like an absent one (Python truthiness), so `location=""` matches
every record, including records with no location field. -/
theorem build_filter_matches_empty_as_absent
    (q location subject : Option String) (d : Doc) :
    evalFilter (build_filter q location subject) d
      = emptyAsAbsentPred q location subject d := by
  simp only [evalFilter, build_filter, emptyAsAbsentPred]
  rw [optTerm_truthy, optTerm_truthy, optTerm_truthy]

/-- C8: `serialize(null)` is `null`; on a record, the output has no `_id`,
has `id` bound to the string form of the input's `_id` whenever the input
had one, and every other field passes through unchanged except that
datetime values are rendered as ISO-8601 strings (null values and all
other shapes are untouched — `isoMapValue` is the identity on them). -/
theorem serialize_spec :
    serialize none = none
    ∧ ∀ d : Doc,
      lookupKey (serializeDoc d) "_id" = none
      ∧ (∀ v, lookupKey d "_id" = some v →
          lookupKey (serializeDoc d) "id" = some (.VStr (strOfValue v)))
      ∧ (∀ k, k ≠ "_id" → k ≠ "id" →
          lookupKey (serializeDoc d) k = (lookupKey d k).map isoMapValue) :=
  ⟨rfl, fun d =>
    ⟨serializeDoc_lookup_id_none d,
     fun _ hv => serializeDoc_lookup_id hv,
     fun _ h1 h2 => serializeDoc_lookup_ne d h1 h2⟩⟩

/-- C8, witness: on a concrete record with an ObjectId and a datetime. -/
theorem serialize_spec_witness :
    lookupKey [("_id", Value.VOid "aabbccddeeff001122334455"),
        ("created_at", Value.VDate 0), ("bio", Value.VNull)] "_id"
      = some (Value.VOid "aabbccddeeff001122334455")
    ∧ lookupKey (serializeDoc [("_id", Value.VOid "aabbccddeeff001122334455"),
        ("created_at", Value.VDate 0), ("bio", Value.VNull)]) "id"
      = some (Value.VStr "aabbccddeeff001122334455")
    ∧ lookupKey (serializeDoc [("_id", Value.VOid "aabbccddeeff001122334455"),
        ("created_at", Value.VDate 0), ("bio", Value.VNull)]) "created_at"
      = (lookupKey [("_id", Value.VOid "aabbccddeeff001122334455"),
          ("created_at", Value.VDate 0), ("bio", Value.VNull)] "created_at").map
            isoMapValue :=
  ⟨rfl,
   (serialize_spec.2 _).2.1 (Value.VOid "aabbccddeeff001122334455") rfl,
   (serialize_spec.2 _).2.2 "created_at" (by decide) (by decide)⟩

/-- C9: `serialize` is idempotent — a serialized record has no `_id` left
to rename and no datetime values left to render, so a second application
changes nothing, and `serialize (serialize r) = serialize r` outright
(including on `null`). -/
theorem serialize_idempotent (o : Option Doc) :
    serialize (serialize o) = serialize o := by
  cases o with
  | none => rfl
  | some d => exact congrArg some (serializeDoc_idem d)

/-- C10: the document handed to the store by `create` draws its keys from
the fifteen declared `CreateItemRequest` fields plus `created_at` and
`updated_at` (a payload key outside the request model cannot reach the
store), and always contains `title`, `created_at` and `updated_at`. -/
theorem createDoc_keys (p : CreateItemRequest) (now : Nat) :
    (createDoc p now).map (fun kv => kv.1) ⊆
      ["title", "description", "owner_id", "owner_name", "location", "subject",
       "price", "condition", "url", "tags", "start_time", "end_time",
       "rate_per_hour", "availability", "status", "created_at", "updated_at"]
    ∧ "title" ∈ (createDoc p now).map (fun kv => kv.1)
    ∧ "created_at" ∈ (createDoc p now).map (fun kv => kv.1)
    ∧ "updated_at" ∈ (createDoc p now).map (fun kv => kv.1) := by
  refine ⟨?_, ?_, ?_, ?_⟩
  · intro k hk
    rw [createDoc, List.map_append] at hk
    rcases List.mem_append.1 hk with h | h
    · have h2 := keys_fieldsToDoc_subset (payloadFields p) h
      have h3 : (payloadFields p).map (fun kv => kv.1)
          = ["title", "description", "owner_id", "owner_name", "location",
             "subject", "price", "condition", "url", "tags", "start_time",
             "end_time", "rate_per_hour", "availability", "status"] := rfl
      rw [h3] at h2
      exact (by decide :
        (["title", "description", "owner_id", "owner_name", "location",
          "subject", "price", "condition", "url", "tags", "start_time",
          "end_time", "rate_per_hour", "availability", "status"] : List String) ⊆
        ["title", "description", "owner_id", "owner_name", "location", "subject",
         "price", "condition", "url", "tags", "start_time", "end_time",
         "rate_per_hour", "availability", "status", "created_at", "updated_at"]) h2
    · exact (by decide : (["created_at", "updated_at"] : List String) ⊆
        ["title", "description", "owner_id", "owner_name", "location", "subject",
         "price", "condition", "url", "tags", "start_time", "end_time",
         "rate_per_hour", "availability", "status", "created_at", "updated_at"]) h
  · simp [createDoc, docOfPayload, payloadFields, fieldsToDoc]
  · simp [createDoc]
  · simp [createDoc]

/-! ## Sorting lemmas -/

theorem findSorted_pairwise_asc (docs : List Doc) (f : Filter) (k : String) :
    (findSorted docs f k true).Pairwise (fun a b => keyNat a k ≤ keyNat b k) := by
  haveI : IsTotal Doc (fun a b => keyNat a k ≤ keyNat b k) :=
    ⟨fun a b => Nat.le_total _ _⟩
  haveI : IsTrans Doc (fun a b => keyNat a k ≤ keyNat b k) :=
    ⟨fun _ _ _ hab hbc => Nat.le_trans hab hbc⟩
  simp only [findSorted, if_true]
  exact List.sorted_insertionSort _ _

theorem findSorted_pairwise_desc (docs : List Doc) (f : Filter) (k : String) :
    (findSorted docs f k false).Pairwise (fun a b => keyNat b k ≤ keyNat a k) := by
  haveI : IsTotal Doc (fun a b => keyNat b k ≤ keyNat a k) :=
    ⟨fun a b => (Nat.le_total _ _).symm.imp id id⟩
  haveI : IsTrans Doc (fun a b => keyNat b k ≤ keyNat a k) :=
    ⟨fun _ _ _ hab hbc => Nat.le_trans hbc hab⟩
  simp only [findSorted, Bool.false_eq_true, if_false]
  exact List.sorted_insertionSort _ _

theorem findSorted_perm (docs : List Doc) (f : Filter) (k : String) (b : Bool) :
    (findSorted docs f k b).Perm (docs.filter (fun d => evalFilter f d)) := by
  cases b with
  | true =>
    simp only [findSorted, if_true]
    exact List.perm_insertionSort _ _
  | false =>
    simp only [findSorted, Bool.false_eq_true, if_false]
    exact List.perm_insertionSort _ _

/-- C2: `list(events)` returns the matching records sorted by `start_time`
ascending (non-decreasing, with a missing/null `start_time` ranking
lowest, as in MongoDB); every other endpoint returns the matching records
sorted by `created_at` descending (non-increasing). Each endpoint's
response is those documents serialized in order, and the sorted sequence
is a permutation of exactly the records matching the built filter. -/
theorem list_ordering (st : Store) (q location subject : Option String) :
    ((list_events_docs st q location).Pairwise
        (fun a b => keyNat a "start_time" ≤ keyNat b "start_time")
      ∧ (list_events_docs st q location).Perm
          ((st "event").filter (fun d => evalFilter (build_filter q location none) d))
      ∧ list_events st q location = (list_events_docs st q location).map serializeDoc)
    ∧ ((list_beacons_docs st q location subject).Pairwise
        (fun a b => keyNat b "created_at" ≤ keyNat a "created_at")
      ∧ (list_beacons_docs st q location subject).Perm
          ((st "beacon").filter
            (fun d => evalFilter (build_filter q location subject) d))
      ∧ list_beacons st q location subject
          = (list_beacons_docs st q location subject).map serializeDoc)
    ∧ ((list_resources_docs st q location subject).Pairwise
        (fun a b => keyNat b "created_at" ≤ keyNat a "created_at")
      ∧ (list_resources_docs st q location subject).Perm
          ((st "resource").filter
            (fun d => evalFilter (build_filter q location subject) d))
      ∧ list_resources st q location subject
          = (list_resources_docs st q location subject).map serializeDoc)
    ∧ ((list_tutors_docs st q location subject).Pairwise
        (fun a b => keyNat b "created_at" ≤ keyNat a "created_at")
      ∧ (list_tutors_docs st q location subject).Perm
          ((st "tutor").filter
            (fun d => evalFilter (build_filter q location subject) d))
      ∧ list_tutors st q location subject
          = (list_tutors_docs st q location subject).map serializeDoc)
    ∧ ((list_clubs_docs st q location).Pairwise
        (fun a b => keyNat b "created_at" ≤ keyNat a "created_at")
      ∧ (list_clubs_docs st q location).Perm
          ((st "club").filter (fun d => evalFilter (build_filter q location none) d))
      ∧ list_clubs st q location = (list_clubs_docs st q location).map serializeDoc)
    ∧ ((list_lostfound_docs st q location subject).Pairwise
        (fun a b => keyNat b "created_at" ≤ keyNat a "created_at")
      ∧ (list_lostfound_docs st q location subject).Perm
          ((st "lostfound").filter
            (fun d => evalFilter (build_filter q location subject) d))
      ∧ list_lostfound st q location subject
          = (list_lostfound_docs st q location subject).map serializeDoc)
    ∧ ((list_market_docs st q location).Pairwise
        (fun a b => keyNat b "created_at" ≤ keyNat a "created_at")
      ∧ (list_market_docs st q location).Perm
          ((st "market").filter (fun d => evalFilter (build_filter q location none) d))
      ∧ list_market st q location = (list_market_docs st q location).map serializeDoc) :=
  ⟨⟨findSorted_pairwise_asc _ _ _, findSorted_perm _ _ _ _, rfl⟩,
   ⟨findSorted_pairwise_desc _ _ _, findSorted_perm _ _ _ _, rfl⟩,
   ⟨findSorted_pairwise_desc _ _ _, findSorted_perm _ _ _ _, rfl⟩,
   ⟨findSorted_pairwise_desc _ _ _, findSorted_perm _ _ _ _, rfl⟩,
   ⟨findSorted_pairwise_desc _ _ _, findSorted_perm _ _ _ _, rfl⟩,
   ⟨findSorted_pairwise_desc _ _ _, findSorted_perm _ _ _ _, rfl⟩,
   ⟨findSorted_pairwise_desc _ _ _, findSorted_perm _ _ _ _, rfl⟩⟩

/-- C5: signup fails with a conflict iff some stored user has the same
`student_id` OR the same `email` (one combined check, either match alone
blocks), on a conflict the user collection is unchanged, and otherwise the
user document — carrying the one-way hash of the password — is inserted
and the new id returned. -/
theorem signup_conflict_iff (users : List Doc) (p : SignupRequest) (now : Nat)
    (newId : String) (hash_password : String → String) :
    ((signup users p now newId hash_password).1 = .error .conflict ↔
      ∃ u ∈ users, lookupKey u "student_id" = some (.VStr p.student_id)
        ∨ lookupKey u "email" = some (.VStr p.email))
    ∧ ((signup users p now newId hash_password).1 = .error .conflict →
        (signup users p now newId hash_password).2 = users)
    ∧ ((¬ ∃ u ∈ users, lookupKey u "student_id" = some (.VStr p.student_id)
          ∨ lookupKey u "email" = some (.VStr p.email)) →
        signup users p now newId hash_password
          = (.ok newId, users ++ [userDocOf p now newId hash_password])
        ∧ lookupKey (userDocOf p now newId hash_password) "password_hash"
          = some (.VStr (hash_password p.password))) := by
  have key : (users.any fun d => matchesSignup p d) = true ↔
      ∃ u ∈ users, lookupKey u "student_id" = some (.VStr p.student_id)
        ∨ lookupKey u "email" = some (.VStr p.email) := by
    simp only [List.any_eq_true, matchesSignup, Bool.or_eq_true, beq_iff_eq]
  unfold signup
  cases hg : users.any (fun d => matchesSignup p d) with
  | true =>
    rw [if_pos rfl]
    exact ⟨⟨fun _ => key.1 hg, fun _ => rfl⟩, fun _ => rfl,
      fun hn => absurd (key.1 hg) hn⟩
  | false =>
    rw [if_neg (by simp)]
    exact ⟨⟨fun h => absurd h (by simp),
        fun hex => absurd (key.2 hex) (by simp [hg])⟩,
      fun h => absurd h (by simp), fun _ => ⟨rfl, rfl⟩⟩

/-- C5, witness: a second signup reusing the student_id with a different
email is rejected with a conflict and inserts nothing. -/
theorem signup_conflict_iff_witness :
    (signup [[("student_id", Value.VStr "s1"), ("email", Value.VStr "a@x")]]
        ⟨"s1", "n", "b@y", "pw"⟩ 0 "aa" (fun s => s)).1 = .error .conflict
    ∧ (signup [[("student_id", Value.VStr "s1"), ("email", Value.VStr "a@x")]]
        ⟨"s1", "n", "b@y", "pw"⟩ 0 "aa" (fun s => s)).2
      = [[("student_id", Value.VStr "s1"), ("email", Value.VStr "a@x")]] := by
  have h := signup_conflict_iff
    [[("student_id", Value.VStr "s1"), ("email", Value.VStr "a@x")]]
    ⟨"s1", "n", "b@y", "pw"⟩ 0 "aa" (fun s => s)
  have hex : (signup [[("student_id", Value.VStr "s1"), ("email", Value.VStr "a@x")]]
      ⟨"s1", "n", "b@y", "pw"⟩ 0 "aa" (fun s => s)).1 = .error .conflict :=
    h.1.2 ⟨[("student_id", Value.VStr "s1"), ("email", Value.VStr "a@x")],
      by simp, Or.inl rfl⟩
  exact ⟨hex, h.2.1 hex⟩

/-- C6: login fails 401 iff no stored user's email or student_id equals
the identifier, or the matched user's stored `password_hash` differs from
the hash of the supplied password (one collapsed error); on failure no
session is inserted; on success the session references the user id with
`expires_at` = issue time + 7 days, and the response carries the token and
the serialized user, `password_hash` included. -/
theorem login_unauthorized_iff (users sessions : List Doc) (p : LoginRequest)
    (now : Nat) (token sessId : String) (hash_password : String → String) :
    ((login users sessions p now token sessId hash_password).1
        = .error .unauthorized ↔
      users.find? (fun d => matchesIdent p.identifier d) = none
      ∨ ∃ u, users.find? (fun d => matchesIdent p.identifier d) = some u
          ∧ lookupKey u "password_hash" ≠ some (.VStr (hash_password p.password)))
    ∧ ((login users sessions p now token sessId hash_password).1
          = .error .unauthorized →
        (login users sessions p now token sessId hash_password).2 = sessions)
    ∧ (∀ u, users.find? (fun d => matchesIdent p.identifier d) = some u →
        lookupKey u "password_hash" = some (.VStr (hash_password p.password)) →
        login users sessions p now token sessId hash_password
          = (.ok (token, some (serializeDoc u)),
             sessions ++ [sessionDocOf u token now sessId])
        ∧ lookupKey (sessionDocOf u token now sessId) "expires_at"
            = some (.VDate (now + 7 * 86400))
        ∧ lookupKey (sessionDocOf u token now sessId) "user_id"
            = some (.VStr (pyStr (lookupKey u "_id")))
        ∧ lookupKey (sessionDocOf u token now sessId) "token"
            = some (.VStr token)
        ∧ lookupKey (serializeDoc u) "password_hash"
            = some (.VStr (hash_password p.password))) := by
  unfold login
  cases hf : users.find? (fun d => matchesIdent p.identifier d) with
  | none =>
    exact ⟨⟨fun _ => Or.inl rfl, fun _ => rfl⟩, fun _ => rfl,
      fun u hu => absurd hu (by simp)⟩
  | some u0 =>
    dsimp only
    cases hh : lookupKey u0 "password_hash" == some (.VStr (hash_password p.password)) with
    | true =>
      rw [if_pos rfl]
      have heq : lookupKey u0 "password_hash"
          = some (.VStr (hash_password p.password)) := by simpa using hh
      refine ⟨⟨fun h => absurd h (by simp), ?_⟩, fun h => absurd h (by simp), ?_⟩
      · rintro (h | ⟨u, hu, hne⟩)
        · exact absurd h (by simp)
        · obtain rfl : u0 = u := by simpa using hu
          exact absurd heq hne
      · intro u hu hpw
        obtain rfl : u0 = u := by simpa using hu
        refine ⟨rfl, rfl, rfl, rfl, ?_⟩
        rw [serializeDoc_lookup_ne u0 (by decide) (by decide), hpw]
        rfl
    | false =>
      rw [if_neg (by simp)]
      have hne : lookupKey u0 "password_hash"
          ≠ some (.VStr (hash_password p.password)) := by
        intro he
        rw [he] at hh
        simp at hh
      exact ⟨⟨fun _ => Or.inr ⟨u0, rfl, hne⟩, fun _ => rfl⟩, fun _ => rfl,
        fun u hu hpw => absurd hpw (by
          obtain rfl : u0 = u := by simpa using hu
          exact hne)⟩

/-- A one-user collection used to exercise the login path on concrete data. -/
def users330 : List Doc :=
  [[("email", Value.VStr "a@x"), ("student_id", Value.VStr "s1"),
    ("password_hash", Value.VStr "pw#"), ("_id", Value.VOid "aa")]]

/-- C6, witness: a concrete successful login via email, with the 7-day
session and the leaked `password_hash` in the response. -/
theorem login_unauthorized_iff_witness :
    users330.find? (fun d => matchesIdent "a@x" d) = some
        [("email", Value.VStr "a@x"), ("student_id", Value.VStr "s1"),
         ("password_hash", Value.VStr "pw#"), ("_id", Value.VOid "aa")]
    ∧ login users330 [] ⟨"a@x", "pw"⟩ 100 "tok" "bb" (fun s => s ++ "#")
        = (.ok ("tok", some (serializeDoc
            [("email", Value.VStr "a@x"), ("student_id", Value.VStr "s1"),
             ("password_hash", Value.VStr "pw#"), ("_id", Value.VOid "aa")])),
           [] ++ [sessionDocOf
            [("email", Value.VStr "a@x"), ("student_id", Value.VStr "s1"),
             ("password_hash", Value.VStr "pw#"), ("_id", Value.VOid "aa")]
            "tok" 100 "bb"])
    ∧ lookupKey (sessionDocOf
          [("email", Value.VStr "a@x"), ("student_id", Value.VStr "s1"),
           ("password_hash", Value.VStr "pw#"), ("_id", Value.VOid "aa")]
          "tok" 100 "bb") "expires_at" = some (.VDate (100 + 7 * 86400)) := by
  have h := (login_unauthorized_iff users330 [] ⟨"a@x", "pw"⟩ 100 "tok" "bb"
    (fun s => s ++ "#")).2.2
    [("email", Value.VStr "a@x"), ("student_id", Value.VStr "s1"),
     ("password_hash", Value.VStr "pw#"), ("_id", Value.VOid "aa")]
    rfl rfl
  exact ⟨rfl, h.1, h.2.1⟩

/-! ## Create lemmas -/

theorem lookupKey_append_eq_of_right_none (l1 l2 : Doc) (k : String)
    (h : lookupKey l2 k = none) : lookupKey (l1 ++ l2) k = lookupKey l1 k := by
  cases hl : lookupKey l1 k with
  | some v => exact lookupKey_append_of_some _ hl
  | none => rw [lookupKey_append_of_none _ hl, h]

theorem lookup_fieldsToDoc_none {l : List (String × Option Value)} {k : String}
    (h : ∀ kv ∈ l, kv.1 ≠ k) : lookupKey (fieldsToDoc l) k = none := by
  induction l with
  | nil => rfl
  | cons hd t ih =>
    obtain ⟨k', ov⟩ := hd
    have hk : (k' == k) = false := by
      simpa using h (k', ov) (by simp)
    have ht : ∀ kv ∈ t, kv.1 ≠ k := fun kv hkv => h kv (by simp [hkv])
    cases ov with
    | none =>
      simp only [fieldsToDoc, List.filterMap_cons, Option.map_none']
      exact ih ht
    | some v =>
      simp only [fieldsToDoc, List.filterMap_cons, Option.map_some']
      simpa [lookupKey, hk] using ih ht

theorem lookup_fieldsToDoc (l : List (String × Option Value)) (k : String)
    (h : (l.map (fun kv => kv.1)).Nodup) :
    lookupKey (fieldsToDoc l) k
      = (l.find? (fun kv => kv.1 == k)).bind (fun kv => kv.2) := by
  induction l with
  | nil => rfl
  | cons hd t ih =>
    obtain ⟨k', ov⟩ := hd
    rw [List.map_cons, List.nodup_cons] at h
    cases hk : k' == k with
    | true =>
      have hkeq : k' = k := by simpa using hk
      rw [List.find?_cons]
      cases ov with
      | none =>
        simp only [fieldsToDoc, List.filterMap_cons, Option.map_none', hk]
        apply lookup_fieldsToDoc_none
        intro kv hkv hc
        exact h.1 (hkeq ▸ hc ▸ List.mem_map_of_mem (fun kv => kv.1) hkv)
      | some v =>
        simp only [fieldsToDoc, List.filterMap_cons, Option.map_some', hk]
        simp [lookupKey, hk]
    | false =>
      rw [List.find?_cons]
      cases ov with
      | none =>
        simp only [fieldsToDoc, List.filterMap_cons, Option.map_none', hk]
        exact ih h.2
      | some v =>
        simp only [fieldsToDoc, List.filterMap_cons, Option.map_some', hk]
        simpa [lookupKey, hk] using ih h.2

theorem lookup_docOfPayload (p : CreateItemRequest) (k : String) :
    lookupKey (docOfPayload p) k
      = ((payloadFields p).find? (fun kv => kv.1 == k)).bind (fun kv => kv.2) := by
  unfold docOfPayload
  refine lookup_fieldsToDoc (payloadFields p) k ?_
  rw [show (payloadFields p).map (fun kv => kv.1)
    = ["title", "description", "owner_id", "owner_name", "location", "subject",
       "price", "condition", "url", "tags", "start_time", "end_time",
       "rate_per_hour", "availability", "status"] from rfl]
  decide

theorem insertedDoc_lookup_payload (p : CreateItemRequest) (now : Nat)
    (newId : String) (k : String)
    (h : lookupKey ([("created_at", Value.VDate now), ("updated_at", Value.VDate now),
        ("_id", Value.VOid newId)] : Doc) k = none) :
    lookupKey (insertedDoc p now newId) k = lookupKey (docOfPayload p) k := by
  rw [insertedDoc, createDoc, List.append_assoc]
  exact lookupKey_append_eq_of_right_none _ _ _ h

theorem insertedDoc_lookup_tail (p : CreateItemRequest) (now : Nat)
    (newId : String) (k : String)
    (hp : lookupKey (docOfPayload p) k = none) :
    lookupKey (insertedDoc p now newId) k
      = lookupKey ([("created_at", Value.VDate now), ("updated_at", Value.VDate now),
          ("_id", Value.VOid newId)] : Doc) k := by
  rw [insertedDoc, createDoc, List.append_assoc]
  exact lookupKey_append_of_none _ hp

theorem insertedDoc_lookup_oid (p : CreateItemRequest) (now : Nat) (newId : String) :
    lookupKey (insertedDoc p now newId) "_id" = some (.VOid newId) := by
  rw [insertedDoc_lookup_tail p now newId "_id" (by rw [lookup_docOfPayload]; rfl)]
  rfl

theorem findById_append_fresh (docs : List Doc) (d : Doc) (i : String)
    (hd : lookupKey d "_id" = some (.VOid i))
    (hfresh : ∀ x ∈ docs, lookupKey x "_id" ≠ some (.VOid i)) :
    findById (docs ++ [d]) i = some d := by
  unfold findById
  rw [List.find?_append]
  have h1 : docs.find? (fun x => lookupKey x "_id" == some (.VOid i)) = none :=
    List.find?_eq_none.2 (fun x hx => by simp [hfresh x hx])
  rw [h1]
  simp [List.find?_cons_of_pos, hd]

/-- C3: on a valid endpoint with a fresh generated id, create stores the
non-null payload fields (null-valued fields are omitted, never stored)
plus server-stamped `created_at`/`updated_at` (and the driver's `_id`),
re-reads the inserted record by its generated id, and returns that re-read
record serialized — with `id` as a string, `created_at` as an ISO string
and, e.g., no `description` key when the payload had none. Other
collections are untouched. -/
theorem create_item_spec (st : Store) (endpoint c : String) (p : CreateItemRequest)
    (now : Nat) (newId : String)
    (hc : lookupColl endpoint = some c)
    (hfresh : ∀ d ∈ st c, lookupKey d "_id" ≠ some (.VOid newId)) :
    create_item st endpoint p now newId
      = (.ok (serialize (findById (st c ++ [insertedDoc p now newId]) newId)),
         storeSet st c (st c ++ [insertedDoc p now newId]))
    ∧ findById (st c ++ [insertedDoc p now newId]) newId
        = some (insertedDoc p now newId)
    ∧ (create_item st endpoint p now newId).1
        = .ok (some (serializeDoc (insertedDoc p now newId)))
    ∧ (create_item st endpoint p now newId).2 c = st c ++ [insertedDoc p now newId]
    ∧ (∀ n, n ≠ c → (create_item st endpoint p now newId).2 n = st n)
    ∧ lookupKey (insertedDoc p now newId) "title" = some (.VStr p.title)
    ∧ lookupKey (insertedDoc p now newId) "description" = p.description.map .VStr
    ∧ lookupKey (insertedDoc p now newId) "owner_id" = p.owner_id.map .VStr
    ∧ lookupKey (insertedDoc p now newId) "owner_name" = p.owner_name.map .VStr
    ∧ lookupKey (insertedDoc p now newId) "location" = p.location.map .VStr
    ∧ lookupKey (insertedDoc p now newId) "subject" = p.subject.map .VStr
    ∧ lookupKey (insertedDoc p now newId) "price" = p.price.map .VNum
    ∧ lookupKey (insertedDoc p now newId) "condition" = p.condition.map .VStr
    ∧ lookupKey (insertedDoc p now newId) "url" = p.url.map .VStr
    ∧ lookupKey (insertedDoc p now newId) "tags" = p.tags.map .VStrList
    ∧ lookupKey (insertedDoc p now newId) "start_time" = p.start_time.map .VDate
    ∧ lookupKey (insertedDoc p now newId) "end_time" = p.end_time.map .VDate
    ∧ lookupKey (insertedDoc p now newId) "rate_per_hour" = p.rate_per_hour.map .VNum
    ∧ lookupKey (insertedDoc p now newId) "availability" = p.availability.map .VStr
    ∧ lookupKey (insertedDoc p now newId) "status" = p.status.map .VStr
    ∧ lookupKey (insertedDoc p now newId) "created_at" = some (.VDate now)
    ∧ lookupKey (insertedDoc p now newId) "updated_at" = some (.VDate now)
    ∧ lookupKey (insertedDoc p now newId) "_id" = some (.VOid newId)
    ∧ lookupKey (serializeDoc (insertedDoc p now newId)) "id" = some (.VStr newId)
    ∧ lookupKey (serializeDoc (insertedDoc p now newId)) "_id" = none
    ∧ lookupKey (serializeDoc (insertedDoc p now newId)) "created_at"
        = some (.VStr (isoString now))
    ∧ lookupKey (serializeDoc (insertedDoc p now newId)) "title"
        = some (.VStr p.title)
    ∧ lookupKey (serializeDoc (insertedDoc p now newId)) "price" = p.price.map .VNum
    ∧ lookupKey (serializeDoc (insertedDoc p now newId)) "description"
        = p.description.map .VStr := by
  have hoid := insertedDoc_lookup_oid p now newId
  have hfind : findById (st c ++ [insertedDoc p now newId]) newId
      = some (insertedDoc p now newId) :=
    findById_append_fresh _ _ _ hoid hfresh
  have hred : create_item st endpoint p now newId
      = (.ok (serialize (findById (st c ++ [insertedDoc p now newId]) newId)),
         storeSet st c (st c ++ [insertedDoc p now newId])) := by
    simp only [create_item, hc]
    simp [storeSet]
  have htitle : lookupKey (insertedDoc p now newId) "title" = some (.VStr p.title) := by
    rw [insertedDoc_lookup_payload p now newId "title" rfl, lookup_docOfPayload]
    rfl
  have hdesc : lookupKey (insertedDoc p now newId) "description"
      = p.description.map .VStr := by
    rw [insertedDoc_lookup_payload p now newId "description" rfl, lookup_docOfPayload]
    rfl
  have hprice : lookupKey (insertedDoc p now newId) "price" = p.price.map .VNum := by
    rw [insertedDoc_lookup_payload p now newId "price" rfl, lookup_docOfPayload]
    rfl
  have hcreated : lookupKey (insertedDoc p now newId) "created_at"
      = some (.VDate now) := by
    rw [insertedDoc_lookup_tail p now newId "created_at"
      (by rw [lookup_docOfPayload]; rfl)]
    rfl
  refine ⟨hred, hfind, by rw [hred, hfind]; rfl, by rw [hred]; simp [storeSet],
    fun n hn => by rw [hred]; simp [storeSet, hn], htitle, hdesc, ?_, ?_, ?_, ?_,
    hprice, ?_, ?_, ?_, ?_, ?_, ?_, ?_, ?_, hcreated, ?_, hoid, ?_,
    serializeDoc_lookup_id_none _, ?_, ?_, ?_, ?_⟩
  · rw [insertedDoc_lookup_payload p now newId "owner_id" rfl, lookup_docOfPayload]
    rfl
  · rw [insertedDoc_lookup_payload p now newId "owner_name" rfl, lookup_docOfPayload]
    rfl
  · rw [insertedDoc_lookup_payload p now newId "location" rfl, lookup_docOfPayload]
    rfl
  · rw [insertedDoc_lookup_payload p now newId "subject" rfl, lookup_docOfPayload]
    rfl
  · rw [insertedDoc_lookup_payload p now newId "condition" rfl, lookup_docOfPayload]
    rfl
  · rw [insertedDoc_lookup_payload p now newId "url" rfl, lookup_docOfPayload]
    rfl
  · rw [insertedDoc_lookup_payload p now newId "tags" rfl, lookup_docOfPayload]
    rfl
  · rw [insertedDoc_lookup_payload p now newId "start_time" rfl, lookup_docOfPayload]
    rfl
  · rw [insertedDoc_lookup_payload p now newId "end_time" rfl, lookup_docOfPayload]
    rfl
  · rw [insertedDoc_lookup_payload p now newId "rate_per_hour" rfl,
      lookup_docOfPayload]
    rfl
  · rw [insertedDoc_lookup_payload p now newId "availability" rfl,
      lookup_docOfPayload]
    rfl
  · rw [insertedDoc_lookup_payload p now newId "status" rfl, lookup_docOfPayload]
    rfl
  · rw [insertedDoc_lookup_tail p now newId "updated_at"
      (by rw [lookup_docOfPayload]; rfl)]
    rfl
  · simpa [strOfValue] using serializeDoc_lookup_id hoid
  · rw [serializeDoc_lookup_ne _ (by decide) (by decide), hcreated]
    rfl
  · rw [serializeDoc_lookup_ne _ (by decide) (by decide), htitle]
    rfl
  · rw [serializeDoc_lookup_ne _ (by decide) (by decide), hprice]
    cases p.price <;> rfl
  · rw [serializeDoc_lookup_ne _ (by decide) (by decide), hdesc]
    cases p.description <;> rfl

/-- C3, witness: the market example — `create("market", {title:"Desk lamp",
price:10})` against an empty store returns a record with `id`, the title,
the price, `created_at` as an ISO string, and no `description` key. -/
theorem create_item_spec_witness :
    (create_item (fun _ => []) "market"
        { title := "Desk lamp", price := some 10 } 0 "aabbccddeeff001122334455").1
      = .ok (some (serializeDoc (insertedDoc
          { title := "Desk lamp", price := some 10 } 0 "aabbccddeeff001122334455")))
    ∧ lookupKey (serializeDoc (insertedDoc
        { title := "Desk lamp", price := some 10 } 0 "aabbccddeeff001122334455"))
        "id" = some (.VStr "aabbccddeeff001122334455")
    ∧ lookupKey (serializeDoc (insertedDoc
        { title := "Desk lamp", price := some 10 } 0 "aabbccddeeff001122334455"))
        "created_at" = some (.VStr (isoString 0))
    ∧ lookupKey (serializeDoc (insertedDoc
        { title := "Desk lamp", price := some 10 } 0 "aabbccddeeff001122334455"))
        "title" = some (.VStr "Desk lamp")
    ∧ lookupKey (serializeDoc (insertedDoc
        { title := "Desk lamp", price := some 10 } 0 "aabbccddeeff001122334455"))
        "price" = some (.VNum 10)
    ∧ lookupKey (serializeDoc (insertedDoc
        { title := "Desk lamp", price := some 10 } 0 "aabbccddeeff001122334455"))
        "description" = none := by
  have h := create_item_spec (fun _ => []) "market" "market"
    { title := "Desk lamp", price := some 10 } 0 "aabbccddeeff001122334455" rfl
    (fun d hd => absurd hd (List.not_mem_nil d))
  exact ⟨h.2.2.1, h.2.2.2.2.2.2.2.2.2.2.2.2.2.2.2.2.2.2.2.2.2.2.2.1,
    h.2.2.2.2.2.2.2.2.2.2.2.2.2.2.2.2.2.2.2.2.2.2.2.2.2.1,
    h.2.2.2.2.2.2.2.2.2.2.2.2.2.2.2.2.2.2.2.2.2.2.2.2.2.2.1,
    h.2.2.2.2.2.2.2.2.2.2.2.2.2.2.2.2.2.2.2.2.2.2.2.2.2.2.2.1,
    h.2.2.2.2.2.2.2.2.2.2.2.2.2.2.2.2.2.2.2.2.2.2.2.2.2.2.2.2⟩

/-! ## Delete lemmas -/

theorem eraseById_not_mem (docs : List Doc) (i : String)
    (hu : (docs.map (fun d => lookupKey d "_id")).Nodup) :
    ∀ d ∈ eraseById docs i, lookupKey d "_id" ≠ some (.VOid i) := by
  induction docs with
  | nil => intro d hd; exact absurd hd (List.not_mem_nil d)
  | cons d0 t ih =>
    rw [List.map_cons, List.nodup_cons] at hu
    intro d hd
    unfold eraseById at hd
    cases hm : lookupKey d0 "_id" == some (.VOid i) with
    | true =>
      rw [if_pos hm] at hd
      have hm' : lookupKey d0 "_id" = some (.VOid i) := by simpa using hm
      intro hdid
      exact hu.1 (hm' ▸ hdid ▸ List.mem_map_of_mem (fun x => lookupKey x "_id") hd)
    | false =>
      rw [if_neg (by simp [hm])] at hd
      rcases List.mem_cons.1 hd with rfl | hd
      · simpa using hm
      · exact ih hu.2 d hd

theorem mem_findSorted {docs : List Doc} {f : Filter} {k : String} {b : Bool}
    {d : Doc} (hd : d ∈ findSorted docs f k b) : d ∈ docs := by
  cases b with
  | true =>
    simp only [findSorted, if_true] at hd
    exact (List.mem_filter.1 ((List.mem_insertionSort _).1 hd)).1
  | false =>
    simp only [findSorted, Bool.false_eq_true, if_false] at hd
    exact (List.mem_filter.1 ((List.mem_insertionSort _).1 hd)).1

/-- C4: on a valid endpoint, delete fails 400 iff the id is not a
syntactically valid ObjectId (store untouched), fails 404 iff the id is
well-formed but matches no stored record (store untouched), and otherwise
succeeds, removing exactly the matched record: the collection becomes the
previous collection minus that record, no other collection changes, no
remaining record (and so no record of any subsequent list over the
collection) carries the deleted id, and a second identical delete fails
404. -/
theorem delete_item_spec (st : Store) (endpoint c : String) (item_id : String)
    (hc : lookupColl endpoint = some c)
    (hu : ((st c).map (fun d => lookupKey d "_id")).Nodup) :
    ((delete_item st endpoint item_id).1 = .error .badRequest
      ↔ isValidOid item_id = false)
    ∧ ((delete_item st endpoint item_id).1 = .error .badRequest →
        (delete_item st endpoint item_id).2 = st)
    ∧ (∀ i, oid item_id = some i →
        ((delete_item st endpoint item_id).1 = .error .notFound
          ↔ findById (st c) i = none))
    ∧ ((delete_item st endpoint item_id).1 = .error .notFound →
        (delete_item st endpoint item_id).2 = st)
    ∧ (∀ i, oid item_id = some i → ∀ d0, findById (st c) i = some d0 →
        (delete_item st endpoint item_id).1 = .ok ()
        ∧ (delete_item st endpoint item_id).2 c = eraseById (st c) i
        ∧ (∀ n, n ≠ c → (delete_item st endpoint item_id).2 n = st n)
        ∧ (∀ d ∈ (delete_item st endpoint item_id).2 c,
            lookupKey d "_id" ≠ some (.VOid i))
        ∧ (∀ q l s k b, ∀ d ∈ findSorted ((delete_item st endpoint item_id).2 c)
              (build_filter q l s) k b, lookupKey d "_id" ≠ some (.VOid i))
        ∧ (delete_item ((delete_item st endpoint item_id).2) endpoint item_id).1
            = .error .notFound) := by
  cases ho : oid item_id with
  | none =>
    have hv : isValidOid item_id = false := by
      cases hv' : isValidOid item_id with
      | true => simp [oid, hv'] at ho
      | false => rfl
    have hred : delete_item st endpoint item_id = (.error .badRequest, st) := by
      simp only [delete_item, hc, ho]
    rw [hred]
    exact ⟨⟨fun _ => hv, fun _ => rfl⟩, fun _ => rfl,
      fun i hi => absurd hi (by simp), fun h => absurd h (by simp),
      fun i hi => absurd hi (by simp)⟩
  | some i =>
    cases hf : findById (st c) i with
    | none =>
      have hv : isValidOid item_id = true := by
        cases hv' : isValidOid item_id with
        | true => rfl
        | false => simp [oid, hv'] at ho
      have hred : delete_item st endpoint item_id = (.error .notFound, st) := by
        simp only [delete_item, hc, ho, hf]
      rw [hred]
      refine ⟨⟨fun h => absurd h (by simp), fun h => by rw [h] at hv; simp at hv⟩,
        fun h => absurd h (by simp), ?_, fun _ => rfl, ?_⟩
      · intro i' hi'
        obtain rfl : i = i' := by simpa using hi'
        exact ⟨fun _ => hf, fun _ => rfl⟩
      · intro i' hi' d0 hd0
        obtain rfl : i = i' := by simpa using hi'
        rw [hf] at hd0
        exact absurd hd0 (by simp)
    | some d0 =>
      have hred : delete_item st endpoint item_id
          = (.ok (), storeSet st c (eraseById (st c) i)) := by
        simp only [delete_item, hc, ho, hf]
      rw [hred]
      have herase : ∀ d ∈ eraseById (st c) i, lookupKey d "_id" ≠ some (.VOid i) :=
        eraseById_not_mem (st c) i hu
      refine ⟨⟨fun h => absurd h (by simp), fun hv => ?_⟩,
        fun h => absurd h (by simp), ?_, fun h => absurd h (by simp), ?_⟩
      · have : isValidOid item_id = true := by
          cases hv' : isValidOid item_id with
          | true => rfl
          | false => simp [oid, hv'] at ho
        rw [this] at hv
        exact absurd hv (by simp)
      · intro i' hi'
        obtain rfl : i = i' := by simpa using hi'
        rw [hf]
        exact ⟨fun h => absurd h (by simp), fun h => absurd h (by simp)⟩
      · intro i' hi' d1 hd1
        obtain rfl : i = i' := by simpa using hi'
        have hsc : storeSet st c (eraseById (st c) i) c = eraseById (st c) i := by
          simp [storeSet]
        refine ⟨rfl, hsc, fun n hn => by simp [storeSet, hn], ?_, ?_, ?_⟩
        · simpa [hsc] using herase
        · intro q l s k b d hd
          dsimp only at hd
          rw [hsc] at hd
          exact herase d (mem_findSorted hd)
        · have hfe : findById (storeSet st c (eraseById (st c) i) c) i = none := by
            rw [hsc]
            exact List.find?_eq_none.2 (fun x hx => by simp [herase x hx])
          simp only [delete_item, hc, ho, hfe]

/-- A one-beacon store used to exercise delete on concrete data. -/
def beaconStore : Store := fun n =>
  if n = "beacon" then
    [[("_id", Value.VOid "aabbccddeeff001122334455"), ("title", Value.VStr "b")]]
  else []

/-- C4, witness: deleting the one stored beacon succeeds and empties the
collection, a second delete of the same id fails 404, and a malformed id
fails 400 leaving the store unchanged. -/
theorem delete_item_spec_witness :
    (delete_item beaconStore "beacons" "aabbccddeeff001122334455").1 = .ok ()
    ∧ (delete_item beaconStore "beacons" "aabbccddeeff001122334455").2 "beacon"
        = eraseById (beaconStore "beacon") "aabbccddeeff001122334455"
    ∧ (delete_item ((delete_item beaconStore "beacons" "aabbccddeeff001122334455").2)
        "beacons" "aabbccddeeff001122334455").1 = .error .notFound
    ∧ ((delete_item beaconStore "beacons" "not-an-oid").1 = .error .badRequest
        ↔ isValidOid "not-an-oid" = false)
    ∧ ((delete_item beaconStore "beacons" "not-an-oid").1 = .error .badRequest →
        (delete_item beaconStore "beacons" "not-an-oid").2 = beaconStore) := by
  have h := delete_item_spec beaconStore "beacons" "beacon"
    "aabbccddeeff001122334455" rfl (by decide)
  have hb := delete_item_spec beaconStore "beacons" "beacon" "not-an-oid" rfl
    (by decide)
  have h5 := h.2.2.2.2 "aabbccddeeff001122334455" rfl
    [("_id", Value.VOid "aabbccddeeff001122334455"), ("title", Value.VStr "b")] rfl
  exact ⟨h5.1, h5.2.1, h5.2.2.2.2.2, hb.1, hb.2.1⟩

/-- C7: for an endpoint name outside the seven registered ones, create and
delete fail 404 with the store untouched; a registered endpoint resolves
to one of the seven internal collections, and neither operation ever
changes the `user` or `session` collections, whatever the endpoint. -/
theorem unknown_endpoint_unreachable (st : Store) (endpoint : String)
    (p : CreateItemRequest) (now : Nat) (newId item_id : String) :
    (lookupColl endpoint = none →
      create_item st endpoint p now newId = (.error .notFound, st)
      ∧ delete_item st endpoint item_id = (.error .notFound, st))
    ∧ (∀ c, lookupColl endpoint = some c →
        c ∈ ["beacon", "resource", "tutor", "club", "event", "lostfound", "market"])
    ∧ (create_item st endpoint p now newId).2 "user" = st "user"
    ∧ (create_item st endpoint p now newId).2 "session" = st "session"
    ∧ (delete_item st endpoint item_id).2 "user" = st "user"
    ∧ (delete_item st endpoint item_id).2 "session" = st "session" := by
  have hmem : ∀ c, lookupColl endpoint = some c →
      c ∈ ["beacon", "resource", "tutor", "club", "event", "lostfound", "market"] := by
    intro c hc
    unfold lookupColl at hc
    cases hfind : ALLOWED_COLLECTIONS.find? (fun kv => kv.1 == endpoint) with
    | none => rw [hfind] at hc; exact absurd hc (by simp)
    | some kv =>
      rw [hfind] at hc
      have hkv := List.mem_of_find?_eq_some hfind
      obtain rfl : kv.2 = c := by simpa using hc
      fin_cases hkv <;> simp
  have hne : ∀ c, lookupColl endpoint = some c → c ≠ "user" ∧ c ≠ "session" := by
    intro c hc
    have := hmem c hc
    fin_cases this <;> exact ⟨by decide, by decide⟩
  refine ⟨?_, hmem, ?_, ?_, ?_, ?_⟩
  · intro hnone
    constructor
    · simp only [create_item, hnone]
    · simp only [delete_item, hnone]
  all_goals {
    cases hc : lookupColl endpoint with
    | none =>
      first
      | simp only [create_item, hc]
      | simp only [delete_item, hc]
    | some c =>
      have hns := hne c hc
      first
      | (simp only [create_item, hc]
         simp [storeSet, Ne.symm hns.1, Ne.symm hns.2])
      | (simp only [delete_item, hc]
         cases ho : oid item_id with
         | none => rfl
         | some i =>
           dsimp only
           cases hf : findById (st c) i with
           | none => rfl
           | some d0 => simp [storeSet, Ne.symm hns.1, Ne.symm hns.2])
  }

/-- C7, witness: the `user` and `session` collection names are not
registered endpoints — both operations 404 and leave the store unchanged. -/
theorem unknown_endpoint_unreachable_witness :
    lookupColl "user" = none
    ∧ create_item beaconStore "user"
        { title := "t" } 0 "aabbccddeeff001122334455"
        = (.error .notFound, beaconStore)
    ∧ delete_item beaconStore "session" "aabbccddeeff001122334455"
        = (.error .notFound, beaconStore) := by
  have h1 := (unknown_endpoint_unreachable beaconStore "user"
    { title := "t" } 0 "aabbccddeeff001122334455" "aabbccddeeff001122334455").1 rfl
  have h2 := (unknown_endpoint_unreachable beaconStore "session"
    { title := "t" } 0 "aabbccddeeff001122334455" "aabbccddeeff001122334455").1 rfl
  exact ⟨rfl, h1.1, h2.2⟩

end UniVerse
